import Mathlib

/-!
Shallow embedding of `src/event_manager.py` (the `Event` entity, the
`EventManager` store and its notification scan) from the
dotfiles-calendar repository, together with proofs settling the frozen
claims about the natural-language specification.

Python `datetime` values are modelled by the `DateTime` structure below;
comparison and `timedelta` arithmetic are carried out on the injective
linearization `toMicro` (microseconds on the proleptic Gregorian
calendar), which agrees with Python's field-lexicographic ordering on
valid naive datetimes.  Machine-level concerns (GLib timers, actual
file descriptors, the Gio notification bus) are modelled by explicit
state: a log of `save_events` payloads, a counter of callback rounds,
and a `sinkFails` oracle standing for the notification service.
-/

namespace CalendarCore

/-- A naive Python `datetime` value: year-month-day plus
hour/minute/second/microsecond.  `datetime.strptime` produces values
with `second = 0` and `micro = 0`; `datetime.now()` may carry any
sub-minute part. -/
structure DateTime where
  year : Nat
  month : Nat
  day : Nat
  hour : Nat
  minute : Nat
  second : Nat
  micro : Nat
deriving DecidableEq, Repr

/-- Gregorian leap-year test, as in Python's `calendar.isleap`. -/
def isLeap (y : Nat) : Bool :=
  (y % 4 == 0 && y % 100 != 0) || (y % 400 == 0)

/-- Number of days in a month of a given year. -/
def daysInMonth (y m : Nat) : Nat :=
  if m = 2 then (if isLeap y then 29 else 28)
  else if m = 4 ∨ m = 6 ∨ m = 9 ∨ m = 11 then 30
  else 31

/-- Days in all years strictly before year `y` of the proleptic
Gregorian calendar (year 1 is the first year), as in
`datetime.toordinal`. -/
def daysBeforeYear (y : Nat) : Nat :=
  let n := y - 1
  n * 365 + n / 4 + n / 400 - n / 100

/-- Days in the months of year `y` strictly before month `m`. -/
def daysBeforeMonth (y m : Nat) : Nat :=
  let base :=
    match m with
    | 1 => 0 | 2 => 31 | 3 => 59 | 4 => 90 | 5 => 120 | 6 => 151
    | 7 => 181 | 8 => 212 | 9 => 243 | 10 => 273 | 11 => 304 | _ => 334
  if 3 ≤ m ∧ isLeap y then base + 1 else base

/-- Proleptic Gregorian ordinal of a calendar day, matching Python's
`date.toordinal` (0001-01-01 has ordinal 1). -/
def ordinalDay (y m d : Nat) : Nat :=
  daysBeforeYear y + daysBeforeMonth y m + d

/-- Injective linearization of a `DateTime` to microseconds.  For valid
datetimes this order-embeds Python's datetime comparison, and
`timedelta` arithmetic corresponds to integer arithmetic on the
image. -/
def toMicro (t : DateTime) : Int :=
  (((ordinalDay t.year t.month t.day * 86400
      + t.hour * 3600 + t.minute * 60 + t.second) * 1000000 + t.micro : Nat) : Int)

/-- Numeric value of an ASCII digit, `none` on any other character. -/
def digitVal (c : Char) : Option Nat :=
  if c.isDigit then some (c.toNat - 48) else none

/-- The `strptime` `%Y` directive: exactly four digits. -/
def pYear : List Char → Option (Nat × List Char)
  | a :: b :: c :: d :: rest =>
    match digitVal a, digitVal b, digitVal c, digitVal d with
    | some x, some y, some z, some w => some (1000 * x + 100 * y + 10 * z + w, rest)
    | _, _, _, _ => none
  | _ => none

/-- A one-or-two digit `strptime` numeric directive: a two-digit token
whose value lies in `[lo2, hi2]`, else a single digit in `[lo1, hi1]`.
Instantiated as `%m` (1..12 / 1..9), `%d` (1..31 / 1..9), `%H`
(0..23 / 0..9) and `%M` (0..59 / 0..9), matching CPython's
`_strptime` regular expressions. -/
def pNum2 (lo2 hi2 lo1 hi1 : Nat) : List Char → Option (Nat × List Char)
  | c1 :: c2 :: rest =>
    match digitVal c1, digitVal c2 with
    | some a, some b =>
      if lo2 ≤ 10 * a + b ∧ 10 * a + b ≤ hi2 then some (10 * a + b, rest)
      else if lo1 ≤ a ∧ a ≤ hi1 then some (a, c2 :: rest)
      else none
    | some a, none =>
      if lo1 ≤ a ∧ a ≤ hi1 then some (a, c2 :: rest) else none
    | _, _ => none
  | [c1] =>
    match digitVal c1 with
    | some a => if lo1 ≤ a ∧ a ≤ hi1 then some (a, []) else none
    | none => none
  | [] => none

/-- A literal character of the `strptime` format string. -/
def pLit (ch : Char) : List Char → Option (List Char)
  | c :: rest => if c = ch then some rest else none
  | [] => none

/-- ASCII whitespace as matched by the regex class used for a literal
space in a `strptime` format string. -/
def isPyWs (c : Char) : Bool :=
  c = ' ' || c = '\t' || c = '\n' || c = '\r' || c = '\x0b' || c = '\x0c'

/-- Drop a run of whitespace characters. -/
def dropWs : List Char → List Char
  | c :: rest => if isPyWs c then dropWs rest else c :: rest
  | [] => []

/-- One-or-more whitespace characters (a literal space in a `strptime`
format matches a nonempty whitespace run). -/
def pWs1 : List Char → Option (List Char)
  | c :: rest => if isPyWs c then some (dropWs rest) else none
  | [] => none

/-- Range checks performed by the `datetime` constructor after
`strptime` has matched the directives: year 1..9999 and a day that
exists in the given month.  A failure is a `ValueError`. -/
def mkValid (y m d hh mm : Nat) : Option DateTime :=
  if 1 ≤ y ∧ y ≤ 9999 ∧ 1 ≤ m ∧ m ≤ 12 ∧ 1 ≤ d ∧ d ≤ daysInMonth y m
      ∧ hh ≤ 23 ∧ mm ≤ 59 then
    some ⟨y, m, d, hh, mm, 0, 0⟩
  else none

/-- Models `datetime.strptime(s, "%Y-%m-%d")`: `none` models the caught
`ValueError`. -/
def parseDateOnly (s : String) : Option DateTime := do
  let (y, r1) ← pYear s.data
  let r2 ← pLit '-' r1
  let (m, r3) ← pNum2 1 12 1 9 r2
  let r4 ← pLit '-' r3
  let (d, r5) ← pNum2 1 31 1 9 r4
  if r5 = [] then mkValid y m d 0 0 else none

/-- Models `datetime.strptime(s, "%Y-%m-%d %H:%M")`: `none` models the caught
`ValueError`. -/
def parseDateTimeStr (s : String) : Option DateTime := do
  let (y, r1) ← pYear s.data
  let r2 ← pLit '-' r1
  let (m, r3) ← pNum2 1 12 1 9 r2
  let r4 ← pLit '-' r3
  let (d, r5) ← pNum2 1 31 1 9 r4
  let r6 ← pWs1 r5
  let (hh, r7) ← pNum2 0 23 0 9 r6
  let r8 ← pLit ':' r7
  let (mm, r9) ← pNum2 0 59 0 9 r8
  if r9 = [] then mkValid y m d hh mm else none

/-- The `Event` entity of `event_manager.py`: one calendar entry. -/
structure Event where
  id : String
  title : String
  date : String
  time : String
  description : String
  notify : Bool
  notify_minutes_before : Int
  notified : Bool
deriving DecidableEq, Repr

/-- Models `Event.__init__`: `fresh` stands for the `str(uuid.uuid4())` drawn
when no truthy `event_id` is supplied (`event_id or str(uuid.uuid4())`
treats both `None` and the empty string as absent).  `notified` always
starts `False`; the constructor takes no `notified` argument. -/
def Event.init (fresh title date time description : String) (notify : Bool)
    (notify_minutes_before : Int) (event_id : Option String) : Event :=
  { id := match event_id with
          | some s => if s = "" then fresh else s
          | none => fresh
    title := title
    date := date
    time := time
    description := description
    notify := notify
    notify_minutes_before := notify_minutes_before
    notified := false }

/-- A well-typed serialized event record: each field either present or
absent, as `dict.get` sees it.  `Event.to_dict` produces records with
every field present. -/
structure EventDict where
  id : Option String
  title : Option String
  date : Option String
  time : Option String
  description : Option String
  notify : Option Bool
  notify_minutes_before : Option Int
  notified : Option Bool
deriving DecidableEq, Repr

/-- Models `Event.to_dict`: all eight fields, by name. -/
def Event.to_dict (e : Event) : EventDict :=
  { id := some e.id
    title := some e.title
    date := some e.date
    time := some e.time
    description := some e.description
    notify := some e.notify
    notify_minutes_before := some e.notify_minutes_before
    notified := some e.notified }

/-- Models `Event.from_dict`: construct through `__init__` with `dict.get`
defaults, then assign `notified` from the payload (default `False`). -/
def Event.from_dict (fresh : String) (d : EventDict) : Event :=
  let e := Event.init fresh (d.title.getD "") (d.date.getD "") (d.time.getD "")
    (d.description.getD "") (d.notify.getD true) (d.notify_minutes_before.getD 0) d.id
  { e with notified := d.notified.getD false }

/-- Models `Event.get_datetime`: a truthy (nonempty) `time` parses the
f-string `f"{self.date} {self.time}"` against `"%Y-%m-%d %H:%M"`,
otherwise `date` alone against `"%Y-%m-%d"` (midnight).  `none` models
the caught `ValueError`. -/
def Event.get_datetime (e : Event) : Option DateTime :=
  if e.time ≠ "" then parseDateTimeStr (e.date ++ " " ++ e.time)
  else parseDateOnly e.date

/-- Zero-pad a number below 100 to two digits, as `strftime` does for
`%m` and `%d`. -/
def pad2 (n : Nat) : String :=
  if n < 10 then "0" ++ toString n else toString n

/-- Zero-pad a number below 10000 to four digits, as `strftime` does
for `%Y`. -/
def pad4 (n : Nat) : String :=
  if n < 10 then "000" ++ toString n
  else if n < 100 then "00" ++ toString n
  else if n < 1000 then "0" ++ toString n
  else toString n

/-- Models `now.strftime("%Y-%m-%d")`, the string the scan compares event
dates against. -/
def todayStr (t : DateTime) : String :=
  pad4 t.year ++ "-" ++ pad2 t.month ++ "-" ++ pad2 t.day

/-- The delivery condition of `_check_notifications`:
`now >= event_dt - timedelta(minutes=notify_minutes_before)` and
`now <= event_dt + timedelta(hours=1)`, both closed. -/
def inReminderWindow (now evDt : DateTime) (minutesBefore : Int) : Bool :=
  decide (toMicro evDt - minutesBefore * 60000000 ≤ toMicro now)
    && decide (toMicro now ≤ toMicro evDt + 3600000000)

/-- Serialization of the whole store, as `save_events` writes it:
`{"events": [e.to_dict() ...]}` is identified with its list of event
records. -/
def serialize (events : List Event) : List EventDict :=
  events.map Event.to_dict

/-- Environment of one scan: the instant `datetime.now()` returned, and
an oracle saying for which events the Gio notification call raises
(models "no desktop notification service" and similar faults). -/
structure ScanEnv where
  now : DateTime
  sinkFails : Event → Bool

/-- Models `_send_notification`: the entire body sits in a `try`/`except`
that logs any exception, so the call always returns normally; the
result records whether delivery succeeded. -/
def send_notification (env : ScanEnv) (e : Event) : Bool :=
  !(env.sinkFails e)

/-- Observable outcome of one `_check_notifications` run: the final
in-memory events, the payload of every `save_events` call made during
the run (in order), and the per-event delivery attempts
`(event id, delivery succeeded)`. -/
structure ScanResult where
  events : List Event
  saves : List (List EventDict)
  sent : List (String × Bool)
deriving DecidableEq, Repr

/-- The delivery loop of `_check_notifications`, one event at a time:
skip events with `notify` false or `notified` true, skip unparseable
datetimes, and inside the reminder window send the notification
(failures swallowed), set `notified = True` and save the whole store.
`done` is the already-processed prefix (the loop mutates events in
place, so each save serializes updated earlier events together with
untouched later ones). -/
def checkGo (env : ScanEnv) (done : List Event) :
    List Event → List (List EventDict) → List (String × Bool) → ScanResult
  | [], saves, sent => ⟨done, saves, sent⟩
  | e :: rest, saves, sent =>
    if !e.notify || e.notified then
      checkGo env (done ++ [e]) rest saves sent
    else
      match e.get_datetime with
      | none => checkGo env (done ++ [e]) rest saves sent
      | some dt =>
        if inReminderWindow env.now dt e.notify_minutes_before then
          let ok := send_notification env e
          let e' := { e with notified := true }
          checkGo env (done ++ [e']) rest
            (saves ++ [serialize (done ++ e' :: rest)]) (sent ++ [(e.id, ok)])
        else
          checkGo env (done ++ [e]) rest saves sent

/-- Lexicographic code-point comparison of character lists, the order
Python's `str.__lt__` implements. -/
def pyCharsLt : List Char → List Char → Bool
  | [], [] => false
  | [], _ :: _ => true
  | _ :: _, [] => false
  | a :: as, b :: bs =>
    decide (a.toNat < b.toNat)
      || (decide (a.toNat = b.toNat) && pyCharsLt as bs)

/-- Python string comparison `a < b`: strict lexicographic order on
code points.  (Lean's builtin `String` order is the same relation, but
its `Decidable` instance does not reduce in the kernel, so the scan
uses this executable form.) -/
def pyStrLt (a b : String) : Bool :=
  pyCharsLt a.data b.data

/-- The stale-reset pass run after delivery: clear `notified` on every
event whose `date` string compares strictly below today's string
(Python compares the raw strings; on canonical `YYYY-MM-DD` dates this
is chronological order).  The `notify` flag is not consulted.  The
source also computes a `yesterday` string here but never uses it. -/
def resetStale (today : String) (e : Event) : Event :=
  if pyStrLt e.date today && e.notified then { e with notified := false } else e

/-- The events after the delivery pass alone, before the stale
reset. -/
def deliveredEvents (env : ScanEnv) (events : List Event) : List Event :=
  (checkGo env [] events [] []).events

/-- Models `_check_notifications`: delivery pass, then the blanket stale
reset.  The reset pass performs no `save_events` call.  The Python
function finally returns `True` so the GLib timeout repeats; that
constant is not part of the observable state. -/
def check_notifications (env : ScanEnv) (events : List Event) : ScanResult :=
  let r := checkGo env [] events [] []
  { events := r.events.map (resetStale (todayStr env.now))
    saves := r.saves
    sent := r.sent }

/-- The `EventManager` store state the claims observe: the in-memory
list, the payload of every `save_events` call so far (an `IOError`
during the write is logged and swallowed, so the attempt itself is the
observable), and how many times `_notify_callbacks` ran (each run
invokes every registered callback, swallowing per-callback
exceptions). -/
structure EventManager where
  events : List Event
  saves : List (List EventDict)
  callbackRuns : Nat
deriving DecidableEq, Repr

/-- A store with no events, no saves and no callback rounds yet. -/
def emptyManager : EventManager := ⟨[], [], 0⟩

/-- Models `save_events`: serialize the full collection and write it. -/
def EventManager.save_events (s : EventManager) : EventManager :=
  { s with saves := s.saves ++ [serialize s.events] }

/-- Models `_notify_callbacks`: run every registered callback once. -/
def EventManager.notify_callbacks (s : EventManager) : EventManager :=
  { s with callbackRuns := s.callbackRuns + 1 }

/-- Models `add_event`: append, save, fire callbacks, return `True`. -/
def EventManager.add_event (ev : Event) (s : EventManager) : Bool × EventManager :=
  let s1 := { s with events := s.events ++ [ev] }
  (true, s1.save_events.notify_callbacks)

/-- The search-and-replace loop of `update_event`: replace the first
event with a matching `id`, or report no match. -/
def updateList (ev : Event) : List Event → Option (List Event)
  | [] => none
  | e :: rest =>
    if e.id = ev.id then some (ev :: rest)
    else (updateList ev rest).map (e :: ·)

/-- Models `update_event`: on the first `id` match replace in place, save and
fire callbacks returning `True`; with no match return `False` having
touched nothing. -/
def EventManager.update_event (ev : Event) (s : EventManager) : Bool × EventManager :=
  match updateList ev s.events with
  | some l => (true, EventManager.notify_callbacks
      (EventManager.save_events { s with events := l }))
  | none => (false, s)

/-- The search-and-delete loop of `remove_event`. -/
def removeList (eventId : String) : List Event → Option (List Event)
  | [] => none
  | e :: rest =>
    if e.id = eventId then some rest
    else (removeList eventId rest).map (e :: ·)

/-- Models `remove_event`: delete the first `id` match, save and fire
callbacks returning `True`; with no match return `False` having
touched nothing. -/
def EventManager.remove_event (eventId : String) (s : EventManager) : Bool × EventManager :=
  match removeList eventId s.events with
  | some l => (true, EventManager.notify_callbacks
      (EventManager.save_events { s with events := l }))
  | none => (false, s)

/-- Constructor arguments of one UI-driven `add`: everything except
the generated id (the add dialog never passes `event_id`). -/
structure EventArgs where
  title : String
  date : String
  time : String
  description : String
  notify : Bool
  notify_minutes_before : Int
deriving DecidableEq, Repr

/-- Build the event one add constructs: `Event.__init__` with no
`event_id`, so its id is the freshly drawn uuid string. -/
def mkAddedEvent (a : EventArgs) (fresh : String) : Event :=
  Event.init fresh a.title a.date a.time a.description a.notify
    a.notify_minutes_before none

/-- One `add` call of a freshly constructed event. -/
def addFresh (s : EventManager) (p : EventArgs × String) : EventManager :=
  (EventManager.add_event (mkAddedEvent p.1 p.2) s).2

/-- A parsed JSON value, as `json.load` yields it.  Numeric payloads
are modelled as integers; the float/int distinction plays no role in
the load control flow. -/
inductive Json where
  | null : Json
  | bool : Bool → Json
  | num : Int → Json
  | str : String → Json
  | arr : List Json → Json
  | obj : List (String × Json) → Json

/-- Key lookup in a parsed JSON object (`json.load` produces a dict
with unique keys). -/
def Json.lookup (k : String) : List (String × Json) → Option Json
  | [] => none
  | kv :: rest => if kv.1 = k then some kv.2 else Json.lookup k rest

/-- Python truthiness of a JSON value, as tested by
`event_id or str(uuid.uuid4())`. -/
def Json.isFalsy : Json → Bool
  | .null => true
  | .bool b => !b
  | .num n => n == 0
  | .str s => s = ""
  | .arr xs => xs.isEmpty
  | .obj kvs => kvs.isEmpty

/-- Whether a JSON value is an object (a Python dict, the only values
on which `.get` exists). -/
def Json.isObj : Json → Bool
  | .obj _ => true
  | _ => false

/-- Python iteration over a JSON value, as the list comprehension
`[Event.from_dict(e) for e in data.get("events", [])]` performs it: a
list yields its elements, a string its characters, a dict its keys;
anything else raises `TypeError`. -/
def Json.iterElems : Json → Option (List Json)
  | .arr xs => some xs
  | .str s => some (s.data.map (fun c => Json.str (String.mk [c])))
  | .obj kvs => some (kvs.map (fun kv => Json.str kv.1))
  | _ => none

/-- An `Event` as `from_dict` actually builds it from a dynamically
typed payload: every field holds the raw JSON value `dict.get`
returned (or its default), with no type checking. -/
structure DynEvent where
  id : Json
  title : Json
  date : Json
  time : Json
  description : Json
  notify : Json
  notify_minutes_before : Json
  notified : Json

/-- Models `Event.from_dict` on a raw JSON value: only a dict has `.get`, so
any other payload raises `AttributeError` (modelled as
`Except.error`), which `load_events` does not catch. -/
def from_dict_dyn (fresh : String) : Json → Except String DynEvent
  | .obj kvs =>
    .ok { id := match Json.lookup "id" kvs with
                | some v => if v.isFalsy then Json.str fresh else v
                | none => Json.str fresh
          title := (Json.lookup "title" kvs).getD (.str "")
          date := (Json.lookup "date" kvs).getD (.str "")
          time := (Json.lookup "time" kvs).getD (.str "")
          description := (Json.lookup "description" kvs).getD (.str "")
          notify := (Json.lookup "notify" kvs).getD (.bool true)
          notify_minutes_before := (Json.lookup "notify_minutes_before" kvs).getD (.num 0)
          notified := (Json.lookup "notified" kvs).getD (.bool false) }
  | _ => .error "AttributeError"

/-- The list comprehension over the iterated elements, indexing the
uuid supply so each constructed event draws its own fresh id; the
first raising element aborts the comprehension. -/
def loadList (fresh : Nat → String) : List Json → Nat → Except String (List DynEvent)
  | [], _ => .ok []
  | x :: xs, i =>
    match from_dict_dyn (fresh i) x with
    | .error msg => .error msg
    | .ok e =>
      match loadList fresh xs (i + 1) with
      | .error msg => .error msg
      | .ok es => .ok (e :: es)

/-- What `load_events` finds on disk: no file at all, a file whose
read raises `IOError` or whose text is not valid JSON
(`json.JSONDecodeError`), or a successfully parsed JSON document. -/
inductive FileContent where
  | missing : FileContent
  | unreadable : FileContent
  | parsed : Json → FileContent

/-- Models `load_events`: a missing file leaves the collection empty with no
error; `JSONDecodeError` and `IOError` are caught, logged and yield an
empty collection.  Any other exception raised inside the `try` block
(the `.get` on a non-dict, iterating a non-iterable, `.get` on a
non-dict list element) escapes to the caller as `Except.error`. -/
def load_events_dyn (fresh : Nat → String) : FileContent → Except String (List DynEvent)
  | .missing => .ok []
  | .unreadable => .ok []
  | .parsed j =>
    match j with
    | .obj kvs =>
      let ev := (Json.lookup "events" kvs).getD (.arr [])
      match ev.iterElems with
      | none => .error "TypeError"
      | some elems => loadList fresh elems 0
    | _ => .error "AttributeError"

/-- Whether an `Except` completed normally (the exception-free
outcomes of a Python call). -/
def exceptOk {ε α : Type} : Except ε α → Bool
  | .ok _ => true
  | .error _ => false

/-- The shapes of a parsed document on which `load_events` completes
without raising: a JSON object whose `"events"` entry (defaulting to
an empty list) is either a list of objects, an empty string, or an
empty object. -/
def goodShape : Json → Bool
  | .obj kvs =>
    match (Json.lookup "events" kvs).getD (.arr []) with
    | .arr es => es.all Json.isObj
    | .str s => s.data.isEmpty
    | .obj kvs2 => kvs2.isEmpty
    | _ => false
  | _ => false

/-- The action of the delivery loop on one event, in isolation: the
loop fires exactly when `notify` is set, `notified` is clear, the
datetime parses, and `now` lies in the reminder window; firing sets
`notified`.  `checkGo_events` below proves the loop equal to mapping
this function. -/
def delivStep (env : ScanEnv) (e : Event) : Event :=
  if !e.notify || e.notified then e
  else
    match e.get_datetime with
    | none => e
    | some dt =>
      if inReminderWindow env.now dt e.notify_minutes_before then
        { e with notified := true }
      else e

/-- The reminder-window example event of the specification:
2025-06-01 at 10:00 with a 15-minute lead. -/
def e10 : Event := ⟨"e1", "Meet", "2025-06-01", "10:00", "", true, 15, false⟩

/-- Instant 2025-06-01 09:45, the lower edge of `e10`'s reminder window. -/
def d0945 : DateTime := ⟨2025, 6, 1, 9, 45, 0, 0⟩

/-- Instant 2025-06-01 11:01, one minute past `e10`'s grace window. -/
def d1101 : DateTime := ⟨2025, 6, 1, 11, 1, 0, 0⟩

/-- An event late on the previous evening whose one-hour grace window
crosses midnight. -/
def eMid : Event := ⟨"m1", "Late", "2025-05-31", "23:30", "", true, 0, false⟩

/-- The instant `eMid`'s datetime parses to. -/
def dMid : DateTime := ⟨2025, 5, 31, 23, 30, 0, 0⟩

/-- Instant 2025-06-01 00:15, inside `eMid`'s grace window but on the next
calendar day. -/
def d0015 : DateTime := ⟨2025, 6, 1, 0, 15, 0, 0⟩

/-- A past-dated, already-notified event with `notify` still set. -/
def eStale2 : Event := ⟨"y2", "Old2", "2025-05-31", "", "", true, 0, true⟩

/-- A past-dated, already-notified event with `notify` cleared. -/
def eStaleW : Event := ⟨"y1", "Old", "2025-05-31", "", "", false, 0, true⟩

/-- A probe event whose id is absent from the concrete stores below. -/
def eProbe : Event := ⟨"zzz", "X", "2025-01-01", "", "", true, 0, false⟩

/-- A one-event store used by the update/remove miss witnesses. -/
def s0 : EventManager := ⟨[e10], [], 0⟩

/-- A serialized record carrying `notified = true`, as only `from_dict`
can introduce it. -/
def dNotified : EventDict :=
  ⟨some "x1", some "T", some "2025-01-01", some "", some "", some true,
    some 0, some true⟩

/-- Two adds with distinct freshly drawn uuids. -/
def pairsW : List (EventArgs × String) :=
  [(⟨"A", "2025-01-01", "", "", true, 0⟩, "id-a"),
   (⟨"B", "2025-01-02", "", "", true, 0⟩, "id-b")]

/-! ### Structural lemmas about the scan -/

/-- The delivery loop computes a map of `delivStep` over the remaining
events, appended to the processed prefix. -/
theorem checkGo_events (env : ScanEnv) (todo : List Event) :
    ∀ done saves sent,
      (checkGo env done todo saves sent).events = done ++ todo.map (delivStep env) := by
  induction todo with
  | nil => intro done saves sent; simp [checkGo]
  | cons e rest ih =>
    intro done saves sent
    by_cases h1 : (!e.notify || e.notified) = true
    · simp only [checkGo, if_pos h1]
      rw [ih]
      simp [delivStep, h1]
    · simp only [checkGo, if_neg h1]
      cases hdt : e.get_datetime with
      | none =>
        rw [ih]
        simp [delivStep, h1, hdt]
      | some dt =>
        by_cases hw : inReminderWindow env.now dt e.notify_minutes_before = true
        · simp only [if_pos hw]
          rw [ih]
          simp [delivStep, h1, hdt, hw]
        · simp only [if_neg hw]
          rw [ih]
          simp [delivStep, h1, hdt, hw]

/-- The delivery loop never discards a recorded save. -/
theorem checkGo_saves_mono (env : ScanEnv) (todo : List Event) :
    ∀ done saves sent,
      saves.length ≤ (checkGo env done todo saves sent).saves.length := by
  induction todo with
  | nil => intro done saves sent; simp [checkGo]
  | cons e rest ih =>
    intro done saves sent
    by_cases h1 : (!e.notify || e.notified) = true
    · simp only [checkGo, if_pos h1]; exact ih _ _ _
    · simp only [checkGo, if_neg h1]
      cases hdt : e.get_datetime with
      | none => exact ih _ _ _
      | some dt =>
        by_cases hw : inReminderWindow env.now dt e.notify_minutes_before = true
        · simp only [if_pos hw]
          calc saves.length ≤ (saves ++ [serialize (done ++ { e with notified := true } :: rest)]).length := by
                simp
            _ ≤ _ := ih _ _ _
        · simp only [if_neg hw]; exact ih _ _ _

/-- If the delivery loop records no save, it changes no event. -/
theorem checkGo_no_save (env : ScanEnv) (todo : List Event) :
    ∀ done saves sent,
      (checkGo env done todo saves sent).saves = saves →
      (checkGo env done todo saves sent).events = done ++ todo := by
  induction todo with
  | nil => intro done saves sent _; simp [checkGo]
  | cons e rest ih =>
    intro done saves sent h
    by_cases h1 : (!e.notify || e.notified) = true
    · simp only [checkGo, if_pos h1] at h ⊢
      rw [ih _ _ _ h]; simp
    · simp only [checkGo, if_neg h1] at h ⊢
      cases hdt : e.get_datetime with
      | none =>
        rw [hdt] at h
        dsimp only at h ⊢
        rw [ih _ _ _ h]; simp
      | some dt =>
        rw [hdt] at h
        dsimp only at h ⊢
        by_cases hw : inReminderWindow env.now dt e.notify_minutes_before = true
        · simp only [if_pos hw] at h
          have hm := checkGo_saves_mono env rest (done ++ [{ e with notified := true }])
            (saves ++ [serialize (done ++ { e with notified := true } :: rest)])
            (sent ++ [(e.id, send_notification env e)])
          rw [h] at hm
          simp at hm
        · simp only [if_neg hw] at h ⊢
          rw [ih _ _ _ h]; simp

/-- Either the delivery loop records no save at all, or its last save
serializes exactly the events as they stand at the end of the
delivery pass. -/
theorem checkGo_last_save (env : ScanEnv) (todo : List Event) :
    ∀ done saves sent,
      (checkGo env done todo saves sent).saves = saves ∨
      (checkGo env done todo saves sent).saves.getLast?
        = some (serialize ((checkGo env done todo saves sent).events)) := by
  induction todo with
  | nil => intro done saves sent; exact Or.inl rfl
  | cons e rest ih =>
    intro done saves sent
    by_cases h1 : (!e.notify || e.notified) = true
    · simp only [checkGo, if_pos h1]; exact ih _ _ _
    · simp only [checkGo, if_neg h1]
      cases hdt : e.get_datetime with
      | none => exact ih _ _ _
      | some dt =>
        by_cases hw : inReminderWindow env.now dt e.notify_minutes_before = true
        · simp only [if_pos hw]
          rcases ih (done ++ [{ e with notified := true }])
              (saves ++ [serialize (done ++ { e with notified := true } :: rest)])
              (sent ++ [(e.id, send_notification env e)]) with hl | hr
          · refine Or.inr ?_
            rw [hl, List.getLast?_concat]
            have he := checkGo_no_save env rest
              (done ++ [{ e with notified := true }])
              (saves ++ [serialize (done ++ { e with notified := true } :: rest)])
              (sent ++ [(e.id, send_notification env e)]) hl
            rw [he]
            simp
          · exact Or.inr hr
        · simp only [if_neg hw]; exact ih _ _ _

/-- The events and the saves of the delivery loop do not depend on
whether the notification sink succeeds or raises. -/
theorem checkGo_sink_indep (now : DateTime) (f g : Event → Bool) (todo : List Event) :
    ∀ done saves sent1 sent2,
      (checkGo ⟨now, f⟩ done todo saves sent1).events
        = (checkGo ⟨now, g⟩ done todo saves sent2).events ∧
      (checkGo ⟨now, f⟩ done todo saves sent1).saves
        = (checkGo ⟨now, g⟩ done todo saves sent2).saves := by
  induction todo with
  | nil => intro done saves sent1 sent2; exact ⟨rfl, rfl⟩
  | cons e rest ih =>
    intro done saves sent1 sent2
    by_cases h1 : (!e.notify || e.notified) = true
    · simp only [checkGo, if_pos h1]; exact ih _ _ _ _
    · simp only [checkGo, if_neg h1]
      cases hdt : e.get_datetime with
      | none => exact ih _ _ _ _
      | some dt =>
        by_cases hw : inReminderWindow now dt e.notify_minutes_before = true
        · simp only [if_pos hw]; exact ih _ _ _ _
        · simp only [if_neg hw]; exact ih _ _ _ _

/-- Any pair drawn from zipping a list with its image under a map is a
point and its image. -/
theorem mem_zip_map {α β : Type} (g : α → β) :
    ∀ (l : List α) (p : α × β), p ∈ l.zip (l.map g) → p.2 = g p.1 := by
  intro l
  induction l with
  | nil => intro p hp; simp at hp
  | cons a t ih =>
    intro p hp
    rw [List.map_cons, List.zip_cons_cons] at hp
    rcases List.mem_cons.1 hp with h | h
    · rw [h]
    · exact ih p h

/-- A sequence of adds only ever appends the constructed events, in
order. -/
theorem foldl_addFresh_events (pairs : List (EventArgs × String)) :
    ∀ s : EventManager,
      (pairs.foldl addFresh s).events
        = s.events ++ pairs.map (fun p => mkAddedEvent p.1 p.2) := by
  induction pairs with
  | nil => intro s; simp
  | cons p ps ih =>
    intro s
    rw [List.foldl_cons, ih]
    simp [addFresh, EventManager.add_event, EventManager.save_events,
      EventManager.notify_callbacks]

/-- An event constructed by the add dialog carries exactly the uuid
drawn for it. -/
theorem mkAddedEvent_id (a : EventArgs) (fresh : String) :
    (mkAddedEvent a fresh).id = fresh := rfl

/-- The update loop misses precisely when no stored event carries the
id. -/
theorem updateList_none (ev : Event) :
    ∀ l : List Event, (∀ e ∈ l, e.id ≠ ev.id) → updateList ev l = none := by
  intro l
  induction l with
  | nil => intro _; rfl
  | cons e rest ih =>
    intro h
    simp only [updateList]
    rw [if_neg (h e (List.mem_cons_self e rest)), ih]
    · rfl
    · intro x hx; exact h x (List.mem_cons_of_mem e hx)

/-- The remove loop misses precisely when no stored event carries the
id. -/
theorem removeList_none (eventId : String) :
    ∀ l : List Event, (∀ e ∈ l, e.id ≠ eventId) → removeList eventId l = none := by
  intro l
  induction l with
  | nil => intro _; rfl
  | cons e rest ih =>
    intro h
    simp only [removeList]
    rw [if_neg (h e (List.mem_cons_self e rest)), ih]
    · rfl
    · intro x hx; exact h x (List.mem_cons_of_mem e hx)

/-! ### Claim theorems -/

/-- C3: for any event `e` with the nonempty id every constructor
produces (`uuid.uuid4()` strings are never empty, and a supplied
truthy `event_id` is kept verbatim), `from_dict (to_dict e)` restores
every one of the eight fields exactly — id, title, date, time,
description, notify, notify_minutes_before, and notified. -/
theorem from_dict_to_dict_roundtrip (fresh : String) (e : Event) (h : e.id ≠ "") :
    Event.from_dict fresh (Event.to_dict e) = e := by
  obtain ⟨i, t, da, ti, de, nf, m, nd⟩ := e
  simp only [ne_eq] at h
  simp [Event.from_dict, Event.to_dict, Event.init, h]

/-- Witness for C3 at the concrete event `e10`. -/
theorem from_dict_to_dict_roundtrip_witness :
    e10.id ≠ "" ∧ Event.from_dict "3f2a-uuid" (Event.to_dict e10) = e10 :=
  ⟨by decide, from_dict_to_dict_roundtrip "3f2a-uuid" e10 (by decide)⟩

/-- C5: after any sequence of `add` calls of dialog-constructed events
(each drawing its own uuid, modelled by pairwise-distinct fresh ids),
the ids in the store are pairwise distinct. -/
theorem add_sequence_ids_distinct (pairs : List (EventArgs × String))
    (h : (pairs.map Prod.snd).Nodup) :
    ((pairs.foldl addFresh emptyManager).events.map Event.id).Nodup := by
  rw [foldl_addFresh_events pairs emptyManager]
  have hmap : (pairs.map (fun p => mkAddedEvent p.1 p.2)).map Event.id
      = pairs.map Prod.snd := by
    rw [List.map_map]
    rfl
  simpa [emptyManager, hmap] using h

/-- Witness for C5: two adds with distinct uuids. -/
theorem add_sequence_ids_distinct_witness :
    ((pairsW.foldl addFresh emptyManager).events.map Event.id).Nodup :=
  add_sequence_ids_distinct pairsW (by decide)

/-- C8: `update_event` with an id not in the store returns `False` and
leaves the whole store state untouched — same events, no additional
save, no callback round. -/
theorem update_event_miss_is_noop (ev : Event) (s : EventManager)
    (h : ∀ e ∈ s.events, e.id ≠ ev.id) :
    EventManager.update_event ev s = (false, s) := by
  simp [EventManager.update_event, updateList_none ev s.events h]

/-- Witness for C8 on a concrete one-event store. -/
theorem update_event_miss_is_noop_witness :
    EventManager.update_event eProbe s0 = (false, s0) :=
  update_event_miss_is_noop eProbe s0 (by decide)

/-- C9: `remove_event` on an absent id returns `False` and leaves the
whole store state untouched — same events, no additional save, no
callback round. -/
theorem remove_event_miss_is_noop (eventId : String) (s : EventManager)
    (h : ∀ e ∈ s.events, e.id ≠ eventId) :
    EventManager.remove_event eventId s = (false, s) := by
  simp [EventManager.remove_event, removeList_none eventId s.events h]

/-- Witness for C9 on a concrete one-event store. -/
theorem remove_event_miss_is_noop_witness :
    EventManager.remove_event "zzz" s0 = (false, s0) :=
  remove_event_miss_is_noop "zzz" s0 (by decide)

/-- C10: `Event.__init__` takes no `notified` argument and sets the
flag `False` for every combination of constructor arguments; only
`from_dict` can produce an event already notified at creation, by
assigning the flag after construction. -/
theorem init_notified_always_false :
    (∀ (fresh title date time descr : String) (nfy : Bool) (m : Int)
        (eid : Option String),
      (Event.init fresh title date time descr nfy m eid).notified = false) ∧
    (Event.from_dict "u-1" dNotified).notified = true :=
  ⟨fun _ _ _ _ _ _ _ _ => rfl, rfl⟩

/-- The delivery loop's action on an eligible event with a parseable
datetime is governed by the reminder window alone. -/
theorem delivStep_eq (env : ScanEnv) (e : Event) (dt : DateTime)
    (h1 : e.notify = true) (h2 : e.notified = false)
    (h3 : e.get_datetime = some dt) :
    delivStep env e
      = { e with notified := inReminderWindow env.now dt e.notify_minutes_before } := by
  obtain ⟨i, t, da, ti, de, nf, m, nd⟩ := e
  obtain rfl : nf = true := h1
  obtain rfl : nd = false := h2
  simp only [delivStep, h3]
  cases hw : inReminderWindow env.now dt m <;> simp [hw]

/-- The full scan is the per-event delivery action followed by the
per-event stale reset, applied pointwise. -/
theorem check_notifications_events (env : ScanEnv) (evs : List Event) :
    (check_notifications env evs).events
      = evs.map (fun a => resetStale (todayStr env.now) (delivStep env a)) := by
  show ((checkGo env [] evs [] []).events.map (resetStale (todayStr env.now))) = _
  rw [checkGo_events env evs [] [] []]
  simp [List.map_map]

/-- C2 (amended): for an event with `notify` set, `notified` clear and
a parseable datetime, one scan leaves `notified` set exactly when
`now` lies in the closed window
`[instant - notify_minutes_before, instant + 1 hour]` AND the event's
date string is not strictly below today's date string — an in-window
event dated before today is set by the delivery pass but cleared again
by the stale-reset pass of the very same scan. -/
theorem scan_notified_iff_window_and_not_past (now : DateTime) (f : Event → Bool)
    (evs : List Event) (i : Nat) (e : Event) (dt : DateTime)
    (hget : evs.get? i = some e) (h1 : e.notify = true) (h2 : e.notified = false)
    (h3 : e.get_datetime = some dt) :
    (check_notifications ⟨now, f⟩ evs).events.get? i
      = some { e with notified :=
          inReminderWindow now dt e.notify_minutes_before
            && !(pyStrLt e.date (todayStr now)) } := by
  rw [check_notifications_events, List.get?_map, hget]
  dsimp only [Option.map]
  rw [delivStep_eq ⟨now, f⟩ e dt h1 h2 h3]
  congr 1
  cases hw : inReminderWindow now dt e.notify_minutes_before <;>
    cases hl : pyStrLt e.date (todayStr now) <;>
      simp [resetStale, hw, hl]

/-- Witness for C2 at the specification's example: the event at
2025-06-01 10:00 with a 15-minute lead is flagged at 09:45 and left
unflagged at 11:01. -/
theorem scan_notified_iff_window_and_not_past_witness :
    (check_notifications ⟨d0945, fun _ => false⟩ [e10]).events.get? 0
        = some { e10 with notified := true } ∧
    (check_notifications ⟨d1101, fun _ => false⟩ [e10]).events.get? 0
        = some { e10 with notified := false } := by
  constructor
  · have h := scan_notified_iff_window_and_not_past d0945 (fun _ => false)
      [e10] 0 e10 ⟨2025, 6, 1, 10, 0, 0, 0⟩ rfl rfl rfl rfl
    exact h.trans (by rfl)
  · have h := scan_notified_iff_window_and_not_past d1101 (fun _ => false)
      [e10] 0 e10 ⟨2025, 6, 1, 10, 0, 0, 0⟩ rfl rfl rfl rfl
    exact h.trans (by rfl)

/-- Counterexample to C2 as stated: `eMid` (2025-05-31 23:30, zero
lead) satisfies every hypothesis and `now` = 2025-06-01 00:15 lies in
its closed window, yet the scan leaves `notified` false — the delivery
pass sets it and the same scan's stale-reset pass clears it, because
the event's date is already below today's. -/
theorem cross_midnight_event_reset_same_scan :
    eMid.notify = true ∧ eMid.notified = false ∧
    eMid.get_datetime = some dMid ∧
    inReminderWindow d0015 dMid eMid.notify_minutes_before = true ∧
    (check_notifications ⟨d0015, fun _ => false⟩ [eMid]).events.map Event.notified
      = [false] :=
  ⟨rfl, rfl, rfl, rfl, rfl⟩

/-- C4: after a scan, every event whose date string is strictly below
today's has `notified` false (whatever its `notify` flag), and the
stale-reset pass leaves every event dated today or later exactly as
the delivery pass left it. -/
theorem scan_resets_stale_notified (now : DateTime) (f : Event → Bool)
    (evs : List Event) :
    (∀ e ∈ (check_notifications ⟨now, f⟩ evs).events,
        pyStrLt e.date (todayStr now) = true → e.notified = false) ∧
    (∀ p ∈ (deliveredEvents ⟨now, f⟩ evs).zip
        (check_notifications ⟨now, f⟩ evs).events,
      pyStrLt p.1.date (todayStr now) = false → p.2 = p.1) := by
  have hout : (check_notifications ⟨now, f⟩ evs).events
      = (deliveredEvents ⟨now, f⟩ evs).map (resetStale (todayStr now)) := rfl
  constructor
  · intro e he
    rw [hout] at he
    obtain ⟨a, _, rfl⟩ := List.mem_map.1 he
    cases hb : pyStrLt a.date (todayStr now) && a.notified
    · simp only [resetStale, hb, Bool.false_eq_true, if_false]
      intro hlt
      rcases Bool.and_eq_false_iff.1 hb with hx | hx
      · exact absurd hlt (by simp [hx])
      · exact hx
    · simp [resetStale, hb]
  · intro p hp hnl
    rw [hout] at hp
    have h2 := mem_zip_map (resetStale (todayStr now)) _ p hp
    rw [h2, resetStale, if_neg]
    simp [hnl]

/-- Witness for C4: a past-dated, already-notified event with `notify`
cleared is reset by the scan. -/
theorem scan_resets_stale_notified_witness :
    ({ eStaleW with notified := false }).notified = false :=
  (scan_resets_stale_notified d0945 (fun _ => false) [eStaleW]).1
    { eStaleW with notified := false } (by decide) (by decide : pyStrLt "2025-05-31" (todayStr d0945) = true)

/-- C1 (amended): a notification-sink failure is caught and logged
inside the send routine, so the scan processes every event and its
flag mutations and saves are identical whatever the sink does — in
particular a failed delivery still marks the event `notified` and is
never retried. -/
theorem scan_unaffected_by_sink_outcome (now : DateTime) (f g : Event → Bool)
    (evs : List Event) :
    (check_notifications ⟨now, f⟩ evs).events
        = (check_notifications ⟨now, g⟩ evs).events ∧
    (check_notifications ⟨now, f⟩ evs).saves
        = (check_notifications ⟨now, g⟩ evs).saves ∧
    (check_notifications ⟨now, f⟩ evs).events.length = evs.length := by
  have h := checkGo_sink_indep now f g evs [] [] [] []
  refine ⟨?_, ?_, ?_⟩
  · show ((checkGo ⟨now, f⟩ [] evs [] []).events.map (resetStale (todayStr now))) = _
    rw [h.1]
    rfl
  · exact h.2
  · rw [check_notifications_events]
    simp

/-- Counterexample to C1 as stated: with a sink that raises on every
event, the scan records the failed attempt for `e10` yet still leaves
its `notified` flag true — the exception is swallowed inside
`_send_notification`, so `_check_notifications` marks the event
regardless. -/
theorem sink_failure_still_marks_notified :
    (check_notifications ⟨d0945, fun _ => true⟩ [e10]).sent = [("e1", false)] ∧
    (check_notifications ⟨d0945, fun _ => true⟩ [e10]).events.map Event.notified
      = [true] :=
  ⟨rfl, rfl⟩

/-- C6 (amended): every save a scan performs happens in the delivery
pass — one per fired event, the last one serializing the store as the
delivery pass left it; the stale-reset pass mutates `notified` flags
in memory without persisting them. -/
theorem scan_saves_only_in_delivery_pass (now : DateTime) (f : Event → Bool)
    (evs : List Event) :
    (check_notifications ⟨now, f⟩ evs).saves
        = (checkGo ⟨now, f⟩ [] evs [] []).saves ∧
    (∀ s, (check_notifications ⟨now, f⟩ evs).saves.getLast? = some s →
      s = serialize (deliveredEvents ⟨now, f⟩ evs)) := by
  refine ⟨rfl, ?_⟩
  intro s hs
  rcases checkGo_last_save ⟨now, f⟩ evs [] [] [] with hl | hr
  · have : (check_notifications ⟨now, f⟩ evs).saves = [] := hl
    rw [this] at hs
    simp at hs
  · have hs' : (checkGo ⟨now, f⟩ [] evs [] []).saves.getLast? = some s := hs
    rw [hs'] at hr
    exact Option.some.inj hr

/-- Witness for C6: with the fired event `e10`, the last (and only)
save of the scan serializes exactly the post-delivery store. -/
theorem scan_saves_only_in_delivery_pass_witness :
    [Event.to_dict { e10 with notified := true }]
      = serialize (deliveredEvents ⟨d0945, fun _ => false⟩ [e10]) :=
  (scan_saves_only_in_delivery_pass d0945 (fun _ => false) [e10]).2
    [Event.to_dict { e10 with notified := true }] rfl

/-- Counterexample to C6 as stated: a scan over the stale notified
event `eStale2` clears its `notified` flag in memory yet performs no
save at all, so the persisted document cannot reflect the mutation
before the scan returns. -/
theorem stale_reset_not_persisted :
    eStale2.notified = true ∧
    (check_notifications ⟨d0945, fun _ => false⟩ [eStale2]).events
      = [{ eStale2 with notified := false }] ∧
    (check_notifications ⟨d0945, fun _ => false⟩ [eStale2]).saves = [] :=
  ⟨rfl, rfl, rfl⟩

/-- The comprehension over the iterated elements completes without
raising exactly when every element is a JSON object. -/
theorem loadList_ok (fresh : Nat → String) :
    ∀ (es : List Json) (i : Nat),
      exceptOk (loadList fresh es i) = es.all Json.isObj := by
  intro es
  induction es with
  | nil => intro i; rfl
  | cons x xs ih =>
    intro i
    cases x with
    | obj kvs =>
      have hrec := ih (i + 1)
      simp only [loadList, from_dict_dyn, List.all_cons, Json.isObj, Bool.true_and]
      cases h : loadList fresh xs (i + 1) with
      | error msg => rw [h] at hrec; exact hrec
      | ok es' => rw [h] at hrec; exact hrec
    | null => simp [loadList, from_dict_dyn, exceptOk, Json.isObj]
    | bool b => simp [loadList, from_dict_dyn, exceptOk, Json.isObj]
    | num n => simp [loadList, from_dict_dyn, exceptOk, Json.isObj]
    | str s => simp [loadList, from_dict_dyn, exceptOk, Json.isObj]
    | arr xs2 => simp [loadList, from_dict_dyn, exceptOk, Json.isObj]

/-- C7 (amended): the load routine treats a missing file as an empty
collection, and catches `JSONDecodeError` and `IOError`, logging them
and resetting the collection to empty without raising; but a document
that parses as JSON with an unexpected shape (a non-dict top level, an
`"events"` entry that is not iterable, or an iterated element that is
not a dict) raises an uncaught `TypeError`/`AttributeError` inside the
`try` block, which does escape to the caller. -/
theorem load_swallows_parse_and_io_faults (fresh : Nat → String) :
    load_events_dyn fresh .missing = .ok [] ∧
    load_events_dyn fresh .unreadable = .ok [] ∧
    ∀ j, exceptOk (load_events_dyn fresh (.parsed j)) = goodShape j := by
  refine ⟨rfl, rfl, ?_⟩
  intro j
  cases j with
  | obj kvs =>
    simp only [load_events_dyn, goodShape]
    cases hev : (Json.lookup "events" kvs).getD (.arr []) with
    | arr es => simp [Json.iterElems, loadList_ok]
    | str s =>
      cases hd : s.data with
      | nil => simp [Json.iterElems, hd, loadList, exceptOk]
      | cons c cs =>
        simp [Json.iterElems, hd, loadList, from_dict_dyn, exceptOk]
    | obj kvs2 =>
      cases hd : kvs2 with
      | nil => simp [Json.iterElems, loadList, exceptOk]
      | cons kv rest =>
        simp [Json.iterElems, loadList, from_dict_dyn, exceptOk]
    | null => simp [Json.iterElems, exceptOk]
    | bool b => simp [Json.iterElems, exceptOk]
    | num n => simp [Json.iterElems, exceptOk]
  | null => rfl
  | bool b => rfl
  | num n => rfl
  | str s => rfl
  | arr xs => rfl

/-- Counterexample to C7 as stated: a file whose content is the valid
JSON document with an events list holding the number `5` makes
`load_events` raise an uncaught `AttributeError` (the element has no
`.get`), so an exception does escape to the caller on malformed
persisted content. -/
theorem load_raises_on_unexpected_shape :
    load_events_dyn (fun _ => "uuid-0")
        (.parsed (Json.obj [("events", Json.arr [Json.num 5])]))
      = .error "AttributeError" := rfl

end CalendarCore


